import Mathlib

/-!
A shallow embedding of `src/examples/surefile/src/maidsafe/surefile/surefile.cc`
(the SureFile session / encrypted-configuration layer) together with proofs
about its operations.  Pure helpers of the C++ file become Lean functions;
the session state (`logged_in_`, the password buffers, the pending-additions
table, the on-disk files) becomes an explicit `State` record threaded through
the operations; external collaborators (the SHA-512 hash, the AES-CFB cipher,
the protobuf credential encoding, the qi mapping grammar from `surefile.h`,
the drive) are modelled from the specification where their code is not part
of `src/`, with a doc comment naming what is missing.
-/

namespace SureFile

/-- The error kinds thrown by `surefile.cc` (`CommonErrors` and
`SureFileErrors`); `decodeFailure` stands for the exceptions of the common
library's value constructors (`NonEmptyString` / `Identity` built from absent
or garbage data) that `Login`'s credential reads can surface. -/
inductive Err
  | unknown
  | uninitialised
  | invalidParameter
  | invalidPassword
  | passwordConfirmationFailed
  | invalidService
  | decodeFailure
  deriving DecidableEq, Repr

/-- C++ `std::string::substr(pos, len)` for in-range arguments: the substring
of `s` starting at byte position `pos`, of at most `len` characters. -/
def substr (s : String) (pos len : Nat) : String :=
  String.mk ((s.data.drop pos).take len)

/-- `crypto::AES256_KeySize` (bytes), from CryptoPP's AES-256. -/
def kAES256KeySize : Nat := 32

/-- `crypto::AES256_IVSize` (bytes), the AES block size. -/
def kAES256IVSize : Nat := 16

/-- `SureFile::SecurePassword`: the wide one-way hash of the password text.
Modelled from the spec: `crypto::Hash<crypto::SHA512>` lives in
maidsafe/common, which is not under `src/`; the hash is kept abstract as the
parameter `hash`, and the definition records exactly what the source does with
it — apply it to the password text and nothing else. -/
def securePassword (hash : String → String) (passwordText : String) : String :=
  hash passwordText

/-- `SureFile::SecureKey`: `secure_password.string().substr(0, AES256_KeySize)`. -/
def secureKey (sp : String) : String :=
  substr sp 0 kAES256KeySize

/-- `SureFile::SecureIv`:
`secure_password.string().substr(AES256_KeySize, AES256_IVSize)`. -/
def secureIv (sp : String) : String :=
  substr sp kAES256KeySize kAES256IVSize

/-- The derived (Key, IV) pair for a password text, as every crypto-using
method of `surefile.cc` derives it: hash, then the two `substr` slices. -/
def keyIv (hash : String → String) (passwordText : String) : String × String :=
  (secureKey (securePassword hash passwordText),
   secureIv (securePassword hash passwordText))

/-! ### Symbolic symmetric cipher and credential encoding

`crypto::SymmEncrypt` / `crypto::SymmDecrypt` (AES256-CFB) and the
`protobuf::Credentials` serialisation are code of this repository that is not
under `src/`.  They are modelled from the spec: encryption is deterministic,
decrypting with the key that encrypted recovers the plaintext, and decrypting
with any other key yields a deterministic non-meaningful result ("a wrong
password must produce a deterministic invalid password failure, never garbage
success").  The model is symbolic: a ciphertext is an injective textual
encoding of the (Key, IV) pair together with the plaintext; decrypting under
a mismatched key yields a fixed garbage string that neither equals the config
comment nor decodes as credentials. -/

/-- One escaped character of the injective encoding: the separator bar, the
backslash and the newline get two-character escapes, every other character
stands for itself.  (Newlines are escaped so that, as with real ciphertext in
the common case, the encrypted sentinel stays on a single config-file line.) -/
def escChar (c : Char) : List Char :=
  if c = '|' then ['\\', 'p']
  else if c = '\\' then ['\\', 'b']
  else if c = '\n' then ['\\', 'n']
  else [c]

/-- Escape a character list so that it contains no bare separator bar. -/
def escape (l : List Char) : List Char :=
  l.flatMap escChar

/-- One encoded part: the escaped payload terminated by a bare separator bar. -/
def encodePart (l : List Char) : List Char :=
  escape l ++ ['|']

/-- Decode one part: unescape up to the first bare separator bar, returning
the payload and the rest of the input; `none` if no terminator is found or an
escape is dangling. -/
def decodePart : List Char → Option (List Char × List Char)
  | [] => none
  | c :: rest =>
    if c = '|' then some ([], rest)
    else if c = '\\' then
      match rest with
      | [] => none
      | d :: rest2 =>
        match decodePart rest2 with
        | some (p, r) =>
          some ((if d = 'p' then '|' else if d = 'n' then '\n' else '\\') :: p, r)
        | none => none
    else
      match decodePart rest with
      | some (p, r) => some (c :: p, r)
      | none => none

/-- Modelled from the spec: `crypto::SymmEncrypt` (maidsafe/common, outside
`src/`).  The ciphertext is the injective encoding of key, IV and plaintext. -/
def symmEncrypt (k : String × String) (m : String) : String :=
  String.mk (encodePart k.1.data ++ encodePart k.2.data ++ encodePart m.data)

/-- Decode a ciphertext back into its (Key, IV) pair and plaintext. -/
def decodeCipher (l : List Char) : Option ((String × String) × String) :=
  match decodePart l with
  | none => none
  | some (k1, r1) =>
    match decodePart r1 with
    | none => none
    | some (k2, r2) =>
      match decodePart r2 with
      | none => none
      | some (m, r3) =>
        if r3 = [] then some ((String.mk k1, String.mk k2), String.mk m) else none

/-- The deterministic result of decrypting under a wrong key: a lone
backslash, which is neither the config-file comment nor decodable as
credentials. -/
def garbagePlain : String :=
  String.mk ['\\']

/-- Modelled from the spec: `crypto::SymmDecrypt` (maidsafe/common, outside
`src/`).  CFB decryption is total: with the matching key it returns the
plaintext, with any other key (or non-ciphertext input) it returns a
deterministic garbage value rather than failing. -/
def symmDecrypt (k : String × String) (c : String) : String :=
  match decodeCipher c.data with
  | some (k2, m) => if k2 = k then m else garbagePlain
  | none => garbagePlain

/-- Modelled from the spec: `SureFile::Serialise` uses the generated
`protobuf::Credentials` encoding of the two identities (generated code,
outside `src/`); modelled as the same injective part encoding. -/
def serialiseIds (driveRootId serviceRootId : String) : String :=
  String.mk (encodePart driveRootId.data ++ encodePart serviceRootId.data)

/-- Modelled from the spec: `SureFile::Parse` decodes the two identities from
a serialised credential plaintext; garbage fails to decode (in the source an
`Identity` built from a failed parse throws). -/
def parseIds (s : String) : Option (String × String) :=
  match decodePart s.data with
  | none => none
  | some (d, r1) =>
    match decodePart r1 with
    | none => none
    | some (sv, r2) =>
      if r2 = [] then some (String.mk d, String.mk sv) else none

/-! ### The configuration file -/

/-- `SureFile::kConfigFileComment`. -/
def kConfigFileComment : String :=
  "# Please do NOT edit.\n"

/-- `SureFile::EncryptComment`: encrypt the fixed comment under the session's
derived (Key, IV). -/
def encryptComment (hash : String → String) (pw : String) : String :=
  symmEncrypt (keyIv hash pw) kConfigFileComment

/-- The writer side of the populated grammar, from
`karma::format(*(karma::string << '>' << karma::string << ':'), service_pairs)`:
each pair is rendered verbatim (no escaping) as `key>value:`. -/
def renderPair (kv : String × String) : List Char :=
  kv.1.data ++ '>' :: (kv.2.data ++ [':'])

/-- The whole mapping line: the pairs rendered in map (key) order. -/
def renderPairs (m : List (String × String)) : List Char :=
  m.flatMap renderPair

/-- `SureFile::WriteConfigFile`: an empty mapping writes the sentinel line
`#` + EncryptComment() + newline; a non-empty mapping writes the comment line
followed by the rendered pairs. -/
def writeConfigFile (hash : String → String) (pw : String)
    (m : List (String × String)) : String :=
  if m = [] then String.mk ('#' :: (encryptComment hash pw).data ++ ['\n'])
  else String.mk (kConfigFileComment.data ++ renderPairs m)

/-- The `std::getline` loop of `ReadConfigFile`: split the file content at
newlines; a trailing newline does not produce an extra empty line. -/
def getLines : List Char → List (List Char)
  | [] => []
  | c :: rest =>
    if c = '\n' then [] :: getLines rest
    else
      match getLines rest with
      | [] => [[c]]
      | l :: ls => (c :: l) :: ls

/-- Modelled from the spec: one entry of the qi mapping grammar (the `grammer`
struct lives in `surefile.h`, which is not under `src/`): a `key>value:` entry
where the key is one or more characters other than `>` and the value is one or
more characters other than `:`.  Returns the entry and the unconsumed rest. -/
def parsePair (l : List Char) : Option ((String × String) × List Char) :=
  let key := l.takeWhile (fun c => c ≠ '>')
  let r1 := l.dropWhile (fun c => c ≠ '>')
  if key = [] then none
  else
    match r1 with
    | [] => none
    | _ :: r2 =>
      let value := r2.takeWhile (fun c => c ≠ ':')
      let r3 := r2.dropWhile (fun c => c ≠ ':')
      if value = [] then none
      else
        match r3 with
        | [] => none
        | _ :: r4 => some ((String.mk key, String.mk value), r4)

/-- Modelled from the spec: the Kleene-star of `parsePair`, as `qi::parse`
applies it — each successfully parsed entry is accumulated into the attribute
before the next is tried, so a partial parse keeps its prefix of entries.
Structurally recursive on explicit fuel so that it evaluates by reduction. -/
def parsePairsFuel : Nat → List Char → List (String × String) × List Char
  | 0, l => ([], l)
  | fuel + 1, l =>
    match parsePair l with
    | none => ([], l)
    | some (kv, rest) =>
      let pr := parsePairsFuel fuel rest
      (kv :: pr.1, pr.2)

/-- Parse a whole mapping line: entries parsed greedily, plus the unconsumed
rest (nonempty rest means the qi parse left trailing input). -/
def parsePairs (l : List Char) : List (String × String) × List Char :=
  parsePairsFuel l.length l

/-- Lexicographic strict ordering on character lists, as `std::string`'s
`operator<` orders map keys (character-wise comparison coincides with the
byte-wise UTF-8 comparison). -/
def charsLt : List Char → List Char → Bool
  | [], [] => false
  | [], _ :: _ => true
  | _ :: _, [] => false
  | a :: as, b :: bs => if a < b then true else if b < a then false else charsLt as bs

/-- `std::string` `operator<` on whole strings. -/
def strLt (a b : String) : Bool :=
  charsLt a.data b.data

/-- `std::map<std::string, std::string>::insert`: keep the map sorted by key
and do not overwrite an existing key. -/
def mapInsert (k v : String) : List (String × String) → List (String × String)
  | [] => [(k, v)]
  | (k2, v2) :: rest =>
    if strLt k k2 then (k, v) :: (k2, v2) :: rest
    else if k = k2 then (k2, v2) :: rest
    else (k2, v2) :: mapInsert k v rest

/-- The `std::map` built by inserting the parsed entries in parse order. -/
def mapOf (ps : List (String × String)) : List (String × String) :=
  ps.foldl (fun m kv => mapInsert kv.1 kv.2 m) []

/-- `SureFile::ReadConfigFile`: split the file into getline lines; fewer than
two lines yields an empty map; otherwise parse the second line, invoking the
`configuration_error` slot (the returned Bool) when the parse leaves trailing
input, and return the map as accumulated so far.  Never raises. -/
def readConfigFile (content : String) : List (String × String) × Bool :=
  match getLines content.data with
  | _ :: line2 :: _ =>
    let pr := parsePairs line2
    (mapOf pr.1, !pr.2.isEmpty)
  | _ => ([], false)

/-- `SureFile::CheckConfigFileContent`: strip the leading `#` and trailing
newline with `substr(1, size - 2)`, decrypt under the current password's
derived key, and compare with the fixed comment; on mismatch the password
buffer is reset and `invalid_password` raised.  Returns the error (if any)
and the password buffer afterwards. -/
def checkConfigFileContent (hash : String → String) (pw : String)
    (content : String) : Option Err × Option String :=
  let plain := symmDecrypt (keyIv hash pw) (substr content 1 (content.length - 2))
  if plain = kConfigFileComment then (none, some pw)
  else (some Err.invalidPassword, none)

/-! ### Session state and operations -/

/-- A password buffer (`maidsafe::surefile::Password`): its text and whether
`Finalise()` has been called. -/
structure PasswordBuf where
  text : String
  finalised : Bool
  deriving DecidableEq, Repr

/-- The state a `SureFile` object owns together with the on-disk files it
touches: `logged_in_`, the two password buffers, the pending-additions table
(alias to the (drive root id, service root id) pair reported by the drive),
the config-file content (`none` when the file is absent), the per-storage-path
credential files, and the set of storage paths that exist on the filesystem
(for `CheckValid`'s `boost::filesystem::exists`). -/
structure State where
  loggedIn : Bool
  password : Option PasswordBuf
  confirmationPassword : Option PasswordBuf
  pending : List (String × String × String)
  configFile : Option String
  credFiles : List (String × String)
  fsExists : List String
  deriving DecidableEq, Repr

/-- The calls an operation makes on its external collaborators, in order:
the drive (`MountDrive`, `drive_->AddService/RemoveService/ReInitialiseService`)
and the two caller-supplied slots. -/
inductive Effect
  | mountDrive (driveRootId : String)
  | driveAddService (serviceAlias storagePath : String)
  | driveRemoveService (serviceAlias : String)
  | reInitialiseService (serviceAlias storagePath serviceRootId : String)
  | slotOnServiceAdded (serviceAlias : String)
  | slotConfigurationError
  deriving DecidableEq, Repr

/-- The result of one operation: the error it throws (if any), the state it
leaves behind (including mutations made before a throw), and the collaborator
calls it performed. -/
structure Outcome where
  err : Option Err
  state : State
  effects : List Effect
  deriving DecidableEq, Repr

/-- The credential-file content `PutIds` writes for a storage path: the
serialised identity pair encrypted under the password's derived (Key, IV). -/
def credContent (hash : String → String) (pw driveRootId serviceRootId : String) :
    String :=
  symmEncrypt (keyIv hash pw) (serialiseIds driveRootId serviceRootId)

/-- `SureFile::GetIds`: read the credential file under the storage path and
decrypt/parse it.  `none` models the throw when the file is absent (the
`NonEmptyString` constructor) or when the decrypted bytes do not parse as
credentials (the `Identity` constructor on a failed protobuf parse). -/
def getIds (hash : String → String) (pw : String)
    (credFiles : List (String × String)) (storagePath : String) :
    Option (String × String) :=
  match List.lookup storagePath credFiles with
  | none => none
  | some cred => parseIds (symmDecrypt (keyIv hash pw) cred)

/-- `SureFile::CheckValid`: the storage path must exist and the alias must not
be an excluded filename (the predicate `drive::detail::ExcludedFilename` is an
external collaborator, passed as the parameter `excluded`). -/
def checkValid (excluded : String → Bool) (fsExists : List String)
    (storagePath serviceAlias : String) : Bool :=
  fsExists.contains storagePath && !excluded serviceAlias

/-- The `while (++it != end)` loop of `SureFile::Login`: for each remaining
mapping entry, recover its identities from its credential file and register it
with the drive (after `CheckValid`); the first failure propagates, keeping the
drive calls already made. -/
def loginLoop (hash : String → String) (pw : String) (excluded : String → Bool)
    (st : State) : List (String × String) → Option Err × List Effect
  | [] => (none, [])
  | (storagePath, serviceAlias) :: rest =>
    match getIds hash pw st.credFiles storagePath with
    | none => (some Err.decodeFailure, [])
    | some ids =>
      if !checkValid excluded st.fsExists storagePath serviceAlias then
        (some Err.invalidService, [])
      else
        let pr := loginLoop hash pw excluded st rest
        (pr.1, Effect.reInitialiseService serviceAlias storagePath ids.2 :: pr.2)

/-- `SureFile::Login`.  Returns immediately when already logged in; finalises
the password (`invalid_password` when none is entered, resetting a stray
confirmation buffer); reads the config file.  An empty mapping verifies the
password against the sentinel (`CheckConfigFileContent`) and mounts a freshly
generated drive root id (`freshId` stands for `RandomAlphaNumericString(64)`);
a non-empty mapping recovers each entry's identities, mounts using the first
entry's drive root id, and registers every entry with the drive.  Only then is
`logged_in_` set. -/
def login (hash : String → String) (freshId : String) (excluded : String → Bool)
    (st : State) : Outcome :=
  if st.loggedIn then ⟨none, st, []⟩
  else
    match st.password with
    | none => ⟨some Err.invalidPassword, { st with confirmationPassword := none }, []⟩
    | some pw =>
      let st1 := { st with password := some { pw with finalised := true } }
      let content := st1.configFile.getD ""
      let rc := readConfigFile content
      let effs0 := if rc.2 then [Effect.slotConfigurationError] else []
      match rc.1 with
      | [] =>
        if content.isEmpty then ⟨some Err.decodeFailure, st1, effs0⟩
        else
          let ck := checkConfigFileContent hash pw.text content
          match ck.1 with
          | some e =>
            ⟨some e, { st1 with password := ck.2.map (fun t => ⟨t, true⟩) }, effs0⟩
          | none => ⟨none, { st1 with loggedIn := true },
                     effs0 ++ [Effect.mountDrive freshId]⟩
      | (p1, a1) :: rest =>
        match getIds hash pw.text st1.credFiles p1 with
        | none => ⟨some Err.decodeFailure, st1, effs0⟩
        | some ids1 =>
          if !checkValid excluded st1.fsExists p1 a1 then
            ⟨some Err.invalidService, st1, effs0 ++ [Effect.mountDrive ids1.1]⟩
          else
            let pr := loginLoop hash pw.text excluded st1 rest
            let effs := effs0 ++ Effect.mountDrive ids1.1 ::
              Effect.reInitialiseService a1 p1 ids1.2 :: pr.2
            match pr.1 with
            | some e => ⟨some e, st1, effs⟩
            | none => ⟨none, { st1 with loggedIn := true }, effs⟩

/-- `SureFile::CreateUser`.  Returns immediately when already logged in;
finalises and confirms both password buffers (discarding the offending buffers
on each failure path); rejects a non-empty existing config file with
`invalid_parameter`; otherwise mounts a fresh drive root id, writes the empty
(sentinel) config file and sets `logged_in_`.  `pwValid` stands for the
external `boost::regex` character-class check of `Password::IsValid`. -/
def createUser (hash : String → String) (freshId : String)
    (pwValid : String → Bool) (st : State) : Outcome :=
  if st.loggedIn then ⟨none, st, []⟩
  else
    match st.password with
    | none => ⟨some Err.invalidPassword, { st with confirmationPassword := none }, []⟩
    | some pw =>
      match st.confirmationPassword with
      | none => ⟨some Err.passwordConfirmationFailed, { st with password := none }, []⟩
      | some _ =>
        let pwF : PasswordBuf := { pw with finalised := true }
        if !pwValid pwF.text then
          ⟨some Err.invalidPassword,
           { st with password := none, confirmationPassword := none }, []⟩
        else if pwF.text ≠ (st.confirmationPassword.map PasswordBuf.text).getD "" then
          ⟨some Err.passwordConfirmationFailed,
           { st with password := none, confirmationPassword := none }, []⟩
        else
          let st1 := { st with password := some pwF, confirmationPassword := none }
          let content := st1.configFile.getD ""
          if !content.isEmpty then ⟨some Err.invalidParameter, st1, []⟩
          else
            ⟨none, { st1 with
                      loggedIn := true
                      configFile := some (writeConfigFile hash pwF.text []) },
             [Effect.mountDrive freshId]⟩

/-- `SureFile::AddService`.  `uninitialised` when not logged in; `CheckValid`;
then, under the mutex, the whole `try` block: missing pending entry (an
`invalid_parameter` throw swallowed by `catch(...)`), the drive attach, the
credential-file write (`PutIds`) and the pending-entry erase, any failure of
which is rethrown as `invalid_service`; finally `AddConfigEntry` — outside the
`try`/`catch` — whose duplicate-path rejection and config-write failure throw
`invalid_parameter`.  The Booleans `attachOk`, `credWriteOk`, `configWriteOk`
inject failure of the external drive attach and of the two `WriteFile` calls. -/
def addService (hash : String → String) (excluded : String → Bool)
    (attachOk credWriteOk configWriteOk : Bool) (st : State)
    (storagePath serviceAlias : String) : Outcome :=
  if !st.loggedIn then ⟨some Err.uninitialised, st, []⟩
  else if !checkValid excluded st.fsExists storagePath serviceAlias then
    ⟨some Err.invalidService, st, []⟩
  else
    match List.lookup serviceAlias st.pending with
    | none => ⟨some Err.invalidService, st, []⟩
    | some ids =>
      if !attachOk then ⟨some Err.invalidService, st, []⟩
      else if !credWriteOk then
        ⟨some Err.invalidService, st, [Effect.driveAddService serviceAlias storagePath]⟩
      else
        let pw := (st.password.map PasswordBuf.text).getD ""
        let st1 := { st with
          credFiles := (storagePath, credContent hash pw ids.1 ids.2) ::
            st.credFiles.filter (fun kv => kv.1 != storagePath)
          pending := st.pending.filter (fun kv => kv.1 != serviceAlias) }
        let effs1 := [Effect.driveAddService serviceAlias storagePath]
        let rc := readConfigFile (st1.configFile.getD "")
        let effs2 := effs1 ++ (if rc.2 then [Effect.slotConfigurationError] else [])
        match List.lookup storagePath rc.1 with
        | some _ => ⟨some Err.invalidParameter, st1, effs2⟩
        | none =>
          if !configWriteOk then ⟨some Err.invalidParameter, st1, effs2⟩
          else
            let newContent := writeConfigFile hash pw (mapInsert storagePath serviceAlias rc.1)
            ⟨none, { st1 with configFile := some newContent }, effs2⟩

/-- `SureFile::AddServiceFailed`: `uninitialised` when not logged in; under
the mutex, a missing pending entry throws `invalid_parameter` (no `catch`
here), otherwise the entry is erased; the drive detach happens after the lock
scope ends. -/
def addServiceFailed (st : State) (serviceAlias : String) : Outcome :=
  if !st.loggedIn then ⟨some Err.uninitialised, st, []⟩
  else
    match List.lookup serviceAlias st.pending with
    | none => ⟨some Err.invalidParameter, st, []⟩
    | some _ =>
      ⟨none, { st with pending := st.pending.filter (fun kv => kv.1 != serviceAlias) },
       [Effect.driveRemoveService serviceAlias]⟩

/-- `SureFile::OnServiceAdded` (the drive callback): under the mutex,
`std::map::insert` of the pending entry — which does not overwrite an existing
key — then the `on_service_added` slot is invoked outside the lock.  (The real
table is key-ordered; the position of a genuinely new entry in the list is
irrelevant to every lookup, so it is appended.) -/
def onServiceAdded (st : State) (serviceAlias driveRootId serviceRootId : String) :
    State × List Effect :=
  let pending :=
    if (List.lookup serviceAlias st.pending).isSome then st.pending
    else st.pending ++ [(serviceAlias, driveRootId, serviceRootId)]
  ({ st with pending := pending }, [Effect.slotOnServiceAdded serviceAlias])

/-! ### Lock extents

The mutex-discipline claim is about which statements execute while `mutex_`
is held.  Lock extents are lexical (`std::lock_guard` scopes), so each
operation's sequence of table / drive / file-I-O / slot actions is transcribed
below together with whether the guard is in scope at that statement. -/

/-- The kinds of statement the concurrency claim talks about. -/
inductive Action
  | tableFind
  | tableInsert
  | tableErase
  | driveAttach
  | driveDetach
  | credFileWrite
  | configFileRead
  | configFileWrite
  | slotCall
  deriving DecidableEq, Repr

/-- One statement of an operation plus whether `mutex_` is held there. -/
structure Step where
  action : Action
  mutexHeld : Bool
  deriving DecidableEq, Repr

/-- Drive attach/detach calls and file I/O (credential write, config
read/write). -/
def isExternalOp : Action → Bool
  | .driveAttach => true
  | .driveDetach => true
  | .credFileWrite => true
  | .configFileRead => true
  | .configFileWrite => true
  | _ => false

/-- `SureFile::AddService`, success path: the `std::lock_guard` is declared
before the `try` block and stays in scope for the rest of the function, so the
table lookup, the drive attach, the `PutIds` credential write, the erase and
the whole `AddConfigEntry` read-modify-write all run with the mutex held. -/
def addServiceSteps : List Step :=
  [⟨Action.tableFind, true⟩, ⟨Action.driveAttach, true⟩,
   ⟨Action.credFileWrite, true⟩, ⟨Action.tableErase, true⟩,
   ⟨Action.configFileRead, true⟩, ⟨Action.configFileWrite, true⟩]

/-- `SureFile::AddServiceFailed`, success path: the lock guard lives in an
inner block around the lookup and erase only; the drive detach runs after it. -/
def addServiceFailedSteps : List Step :=
  [⟨Action.tableFind, true⟩, ⟨Action.tableErase, true⟩,
   ⟨Action.driveDetach, false⟩]

/-- `SureFile::OnServiceAdded`: the lock guard lives in an inner block around
the insert only; the `on_service_added` slot is invoked after it. -/
def onServiceAddedSteps : List Step :=
  [⟨Action.tableInsert, true⟩, ⟨Action.slotCall, false⟩]

/-! ### Helper lemmas: the injective part encoding -/

theorem decodePart_encodePart (l rest : List Char) :
    decodePart (encodePart l ++ rest) = some (l, rest) := by
  induction l with
  | nil =>
    rw [show encodePart [] ++ rest = '|' :: rest by simp [encodePart, escape]]
    rw [decodePart.eq_def]
    simp
  | cons c cs ih =>
    have hT : encodePart (c :: cs) ++ rest = escChar c ++ (encodePart cs ++ rest) := by
      simp [encodePart, escape, List.append_assoc]
    rw [hT]
    by_cases h1 : c = '|'
    · subst h1
      rw [show escChar '|' ++ (encodePart cs ++ rest)
            = '\\' :: 'p' :: (encodePart cs ++ rest) by simp [escChar]]
      rw [decodePart.eq_def]
      simp [ih]
    · by_cases h2 : c = '\\'
      · subst h2
        rw [show escChar '\\' ++ (encodePart cs ++ rest)
              = '\\' :: 'b' :: (encodePart cs ++ rest) by simp [escChar]]
        rw [decodePart.eq_def]
        simp [ih]
      · by_cases h3 : c = '\n'
        · subst h3
          rw [show escChar '\n' ++ (encodePart cs ++ rest)
                = '\\' :: 'n' :: (encodePart cs ++ rest) by simp [escChar]]
          rw [decodePart.eq_def]
          simp [ih]
        · rw [show escChar c ++ (encodePart cs ++ rest)
                = c :: (encodePart cs ++ rest) by simp [escChar, h1, h2, h3]]
          rw [decodePart.eq_def]
          simp [h1, h2, ih]

theorem decodePart_encodePart_nil (l : List Char) :
    decodePart (encodePart l) = some (l, []) := by
  have := decodePart_encodePart l []
  simpa using this

theorem decodeCipher_symmEncrypt (k : String × String) (m : String) :
    decodeCipher (symmEncrypt k m).data = some (k, m) := by
  simp [symmEncrypt, decodeCipher, List.append_assoc, decodePart_encodePart,
        decodePart_encodePart_nil]

theorem symmDecrypt_symmEncrypt (k : String × String) (m : String) :
    symmDecrypt k (symmEncrypt k m) = m := by
  simp [symmDecrypt, decodeCipher_symmEncrypt]

theorem symmDecrypt_wrongKey (k k2 : String × String) (m : String) (h : k2 ≠ k) :
    symmDecrypt k2 (symmEncrypt k m) = garbagePlain := by
  simp [symmDecrypt, decodeCipher_symmEncrypt, Ne.symm h]

theorem parseIds_serialiseIds (d s : String) :
    parseIds (serialiseIds d s) = some (d, s) := by
  simp [parseIds, serialiseIds, decodePart_encodePart, decodePart_encodePart_nil]

theorem getIds_credContent (hash : String → String) (pw d s : String)
    (credFiles : List (String × String)) (p : String)
    (h : List.lookup p credFiles = some (credContent hash pw d s)) :
    getIds hash pw credFiles p = some (d, s) := by
  simp [getIds, h, credContent, symmDecrypt_symmEncrypt, parseIds_serialiseIds]

/-! ### Helper lemmas: the config-file grammar -/

/-- The well-formedness of one mapping entry that the round-trip needs: a
non-empty key free of the key delimiter and of newlines, and a non-empty value
free of the entry separator and of newlines.  (The writer escapes nothing, so
these characters are exactly the ones that corrupt the structure.) -/
def entryWellFormed (kv : String × String) : Prop :=
  kv.1.data ≠ [] ∧ (∀ c ∈ kv.1.data, c ≠ '>' ∧ c ≠ '\n') ∧
  kv.2.data ≠ [] ∧ (∀ c ∈ kv.2.data, c ≠ ':' ∧ c ≠ '\n')

theorem takeWhile_append_stop (p : Char → Bool) (l1 l2 : List Char) (c : Char)
    (h1 : ∀ x ∈ l1, p x = true) (hc : p c = false) :
    (l1 ++ c :: l2).takeWhile p = l1 ∧ (l1 ++ c :: l2).dropWhile p = c :: l2 := by
  induction l1 with
  | nil => simp [List.takeWhile_cons, List.dropWhile_cons, hc]
  | cons a l ih =>
    have ha : p a = true := h1 a (by simp)
    have := ih (fun x hx => h1 x (by simp [hx]))
    simp [List.takeWhile_cons, List.dropWhile_cons, ha, this.1, this.2]

theorem getLines_no_newline (l : List Char) (h : ∀ c ∈ l, c ≠ '\n') (hne : l ≠ []) :
    getLines l = [l] := by
  induction l with
  | nil => simp at hne
  | cons c rest ih =>
    have hc : c ≠ '\n' := h c (by simp)
    by_cases hr : rest = []
    · subst hr
      simp [getLines, hc]
    · rw [getLines]
      simp only [if_neg hc]
      rw [ih (fun x hx => h x (by simp [hx])) hr]

theorem getLines_append_newline (l1 l2 : List Char) (h : ∀ c ∈ l1, c ≠ '\n') :
    getLines (l1 ++ '\n' :: l2) = l1 :: getLines l2 := by
  induction l1 with
  | nil => simp [getLines]
  | cons c rest ih =>
    have hc : c ≠ '\n' := h c (by simp)
    rw [List.cons_append, getLines]
    simp only [if_neg hc]
    rw [ih (fun x hx => h x (by simp [hx]))]

theorem parsePair_renderPair (k v : String) (rest : List Char)
    (hk : k.data ≠ []) (hkgt : ∀ c ∈ k.data, c ≠ '>')
    (hv : v.data ≠ []) (hvc : ∀ c ∈ v.data, c ≠ ':') :
    parsePair (renderPair (k, v) ++ rest) = some ((k, v), rest) := by
  have hshape : renderPair (k, v) ++ rest = k.data ++ '>' :: (v.data ++ ':' :: rest) := by
    simp [renderPair, List.append_assoc]
  have hkey := takeWhile_append_stop (fun c => decide (c ≠ '>')) k.data
    (v.data ++ ':' :: rest) '>'
    (fun x hx => by simpa using hkgt x hx) (by simp)
  have hval := takeWhile_append_stop (fun c => decide (c ≠ ':')) v.data rest ':'
    (fun x hx => by simpa using hvc x hx) (by simp)
  rw [hshape]
  unfold parsePair
  simp only [hkey.1, hkey.2, if_neg hk]
  simp only [hval.1, hval.2, if_neg hv]

theorem parsePairsFuel_renderPairs (M : List (String × String)) (fuel : Nat)
    (hfuel : (renderPairs M).length ≤ fuel)
    (hwf : ∀ kv ∈ M, entryWellFormed kv) :
    parsePairsFuel fuel (renderPairs M) = (M, []) := by
  induction M generalizing fuel with
  | nil =>
    cases fuel with
    | zero => simp [renderPairs, parsePairsFuel]
    | succ f => simp [renderPairs, parsePairsFuel, parsePair]
  | cons kv M' ih =>
    obtain ⟨hk, hkc, hv, hvc⟩ := hwf kv (by simp)
    have hpair : parsePair (renderPairs (kv :: M')) = some (kv, renderPairs M') := by
      rw [show renderPairs (kv :: M') = renderPair (kv.1, kv.2) ++ renderPairs M' by
        simp [renderPairs]]
      exact parsePair_renderPair kv.1 kv.2 (renderPairs M') hk
        (fun c hc => (hkc c hc).1) hv (fun c hc => (hvc c hc).1)
    have hlen : (renderPairs M').length + 1 ≤ (renderPairs (kv :: M')).length := by
      simp [renderPairs, renderPair]
      omega
    cases fuel with
    | zero =>
      exfalso
      omega
    | succ f =>
      rw [parsePairsFuel, hpair]
      dsimp only
      rw [ih f (by omega) (fun x hx => hwf x (by simp [hx]))]

theorem charsLt_irrefl (l : List Char) : charsLt l l = false := by
  induction l with
  | nil => rfl
  | cons a as ih => simp [charsLt, ih]

theorem charsLt_asymm (a b : List Char) (h : charsLt a b = true) :
    charsLt b a = false := by
  induction a generalizing b with
  | nil =>
    cases b with
    | nil => simp [charsLt] at h
    | cons y ys => simp [charsLt]
  | cons x xs ih =>
    cases b with
    | nil => simp [charsLt] at h
    | cons y ys =>
      rw [charsLt] at h ⊢
      by_cases hxy : x < y
      · rw [if_neg (lt_asymm hxy), if_pos hxy]
      · rw [if_neg hxy] at h
        by_cases hyx : y < x
        · rw [if_pos hyx] at h
          exact absurd h (by simp)
        · rw [if_neg hyx] at h
          rw [if_neg hyx, if_neg hxy]
          exact ih ys h

theorem strLt_asymm (a b : String) (h : strLt a b = true) : strLt b a = false :=
  charsLt_asymm a.data b.data h

theorem strLt_ne (a b : String) (h : strLt a b = true) : a ≠ b := by
  intro hab
  subst hab
  rw [strLt, charsLt_irrefl] at h
  exact absurd h (by simp)

theorem mapInsert_append (k v : String) (m : List (String × String))
    (h : ∀ kv ∈ m, strLt kv.1 k = true) :
    mapInsert k v m = m ++ [(k, v)] := by
  induction m with
  | nil => simp [mapInsert]
  | cons kv2 m' ih =>
    have hlt : strLt kv2.1 k = true := h kv2 (by simp)
    rw [show (kv2 : String × String) = (kv2.1, kv2.2) by rfl]
    rw [mapInsert]
    rw [if_neg (by simp [strLt_asymm kv2.1 k hlt])]
    rw [if_neg (Ne.symm (strLt_ne kv2.1 k hlt))]
    rw [ih (fun x hx => h x (by simp [hx]))]
    simp

theorem foldl_mapInsert (M : List (String × String)) :
    ∀ acc : List (String × String),
    (∀ b ∈ M, ∀ a ∈ acc, strLt a.1 b.1 = true) →
    M.Pairwise (fun a b => strLt a.1 b.1 = true) →
    M.foldl (fun m kv => mapInsert kv.1 kv.2 m) acc = acc ++ M := by
  induction M with
  | nil => intro acc _ _; simp
  | cons kv M' ih =>
    intro acc hacc hM
    rw [List.foldl_cons]
    rw [mapInsert_append kv.1 kv.2 acc (fun a ha => hacc kv (by simp) a ha)]
    rw [ih (acc ++ [kv]) ?_ (List.Pairwise.of_cons hM)]
    · simp
    · intro b hb a ha
      rcases List.mem_append.mp ha with h1 | h1
      · exact hacc b (by simp [hb]) a h1
      · have : a = kv := by simpa using h1
        subst this
        exact (List.pairwise_cons.mp hM).1 b hb

theorem mapOf_sorted (M : List (String × String))
    (h : M.Pairwise (fun a b => strLt a.1 b.1 = true)) : mapOf M = M := by
  have := foldl_mapInsert M [] (by simp) h
  simpa [mapOf] using this

theorem renderPairs_no_newline (M : List (String × String))
    (hwf : ∀ kv ∈ M, entryWellFormed kv) :
    ∀ c ∈ renderPairs M, c ≠ '\n' := by
  induction M with
  | nil => simp [renderPairs]
  | cons kv M' ih =>
    intro c hc
    rw [show renderPairs (kv :: M') = renderPair kv ++ renderPairs M' by
      simp [renderPairs]] at hc
    rcases List.mem_append.mp hc with h1 | h1
    · obtain ⟨hk, hkc, hv, hvc⟩ := hwf kv (by simp)
      simp only [renderPair, List.mem_append, List.mem_cons] at h1
      rcases h1 with h2 | h2 | h2 | h2
      · exact (hkc c h2).2
      · subst h2; decide
      · exact (hvc c h2).2
      · have : c = ':' := by simpa using h2
        subst this; decide
    · exact ih (fun x hx => hwf x (by simp [hx])) c h1

theorem renderPairs_ne_nil (kv : String × String) (M' : List (String × String)) :
    renderPairs (kv :: M') ≠ [] := by
  simp [renderPairs, renderPair]

/-- The populated-config round trip: writing a non-empty, key-sorted mapping
whose entries are well formed and reading it back recovers exactly the mapping,
with no `configuration_error`. -/
theorem readConfigFile_writeConfigFile (hash : String → String) (pw : String)
    (M : List (String × String)) (hne : M ≠ [])
    (hwf : ∀ kv ∈ M, entryWellFormed kv)
    (hsort : M.Pairwise (fun a b => strLt a.1 b.1 = true)) :
    readConfigFile (writeConfigFile hash pw M) = (M, false) := by
  rw [writeConfigFile, if_neg hne]
  rw [readConfigFile]
  have hdata : (String.mk (kConfigFileComment.data ++ renderPairs M)).data
      = "# Please do NOT edit.".data ++ '\n' :: renderPairs M := by
    show kConfigFileComment.data ++ renderPairs M = _
    rw [show kConfigFileComment.data = "# Please do NOT edit.".data ++ ['\n'] by decide]
    simp [List.append_assoc]
  rw [hdata]
  rw [getLines_append_newline _ _ (by decide)]
  obtain ⟨kv, M', rfl⟩ : ∃ kv M', M = kv :: M' := by
    cases M with
    | nil => exact absurd rfl hne
    | cons a b => exact ⟨a, b, rfl⟩
  rw [getLines_no_newline _ (renderPairs_no_newline _ hwf) (renderPairs_ne_nil kv M')]
  dsimp only
  rw [show parsePairs (renderPairs (kv :: M'))
      = parsePairsFuel (renderPairs (kv :: M')).length (renderPairs (kv :: M')) from rfl]
  rw [parsePairsFuel_renderPairs _ _ (le_refl _) hwf]
  dsimp only
  rw [mapOf_sorted _ hsort]
  simp

instance (kv : String × String) : Decidable (entryWellFormed kv) := by
  unfold entryWellFormed
  infer_instance

/-- `content.substr(1, content.size() - 2)` recovers exactly the ciphertext
from the sentinel line `'#' + ciphertext + '\n'`. -/
theorem substr_sentinel (E : String) :
    substr (String.mk ('#' :: E.data ++ ['\n'])) 1
      ((String.mk ('#' :: E.data ++ ['\n'])).length - 2) = E := by
  have h1 : (String.mk ('#' :: E.data ++ ['\n'])).length = E.data.length + 2 := by
    show ('#' :: E.data ++ ['\n']).length = E.data.length + 2
    simp
  rw [substr, h1]
  show String.mk ((E.data ++ ['\n']).take (E.data.length + 2 - 2)) = E
  rw [show E.data.length + 2 - 2 = E.data.length by omega]
  rw [List.take_left]

theorem garbagePlain_ne_comment : garbagePlain ≠ kConfigFileComment := by
  decide

/-- A convenient concrete state for instantiating the theorems below. -/
def baseState : State :=
  { loggedIn := false, password := none, confirmationPassword := none,
    pending := [], configFile := none, credFiles := [], fsExists := [] }

/-- `Login`'s service loop succeeds when every remaining entry has a
credential file written under the session password and passes `CheckValid`,
registering each entry with its recovered service root id, in order. -/
theorem loginLoop_all_ok (hash : String → String) (pw : String)
    (excluded : String → Bool) (st : State) (L : List (String × String))
    (dm sm : String → String)
    (hcred : ∀ kv ∈ L, List.lookup kv.1 st.credFiles
        = some (credContent hash pw (dm kv.1) (sm kv.1)))
    (hvalid : ∀ kv ∈ L, checkValid excluded st.fsExists kv.1 kv.2 = true) :
    loginLoop hash pw excluded st L
      = (none, L.map (fun kv => Effect.reInitialiseService kv.2 kv.1 (sm kv.1))) := by
  induction L with
  | nil => simp [loginLoop]
  | cons kv L2 ih =>
    obtain ⟨p, a⟩ := kv
    have h1 := hcred (p, a) (by simp)
    have h2 := hvalid (p, a) (by simp)
    rw [loginLoop]
    rw [getIds_credContent hash pw (dm p) (sm p) st.credFiles p h1]
    simp only [h2, Bool.not_true, if_neg]
    rw [ih (fun x hx => hcred x (by simp [hx])) (fun x hx => hvalid x (by simp [hx]))]
    simp

/-! ### Claim theorems -/

/-- C1, counterexample to the claim as stated: with the session logged in, the
storage path existing, the alias not excluded and no pending addition for it,
`AddService` fails with `invalid_service` — not with `invalid_parameter` as
the claim says — because the `invalid_parameter` throw sits inside the `try`
block whose `catch(...)` rethrows `invalid_service`. -/
theorem c1_counterexample :
    addService (fun s => s) (fun _ => false) true true true
      { baseState with loggedIn := true, fsExists := ["p1"] } "p1" "a1"
      = ⟨some Err.invalidService, { baseState with loggedIn := true, fsExists := ["p1"] }, []⟩
  ∧ (some Err.invalidService ≠ some Err.invalidParameter) := by
  constructor
  · decide
  · decide

/-- C1, amended: under the same premises the call fails with the single
`invalid_service` error, and neither the pending table, the credential files,
nor the persisted mapping is modified (the state is returned unchanged and no
collaborator call is made). -/
theorem c1_amended (hash : String → String) (excluded : String → Bool)
    (attachOk credWriteOk configWriteOk : Bool) (st : State) (p a : String)
    (hlog : st.loggedIn = true)
    (hvalid : checkValid excluded st.fsExists p a = true)
    (hpend : List.lookup a st.pending = none) :
    addService hash excluded attachOk credWriteOk configWriteOk st p a
      = ⟨some Err.invalidService, st, []⟩ := by
  simp [addService, hlog, hvalid, hpend]

/-- C1, witness: the amended theorem at a concrete input. -/
theorem c1_witness :
    addService (fun s => s) (fun _ => false) true true true
      { baseState with loggedIn := true, fsExists := ["p2"] } "p2" "a2"
      = ⟨some Err.invalidService, { baseState with loggedIn := true, fsExists := ["p2"] }, []⟩ :=
  c1_amended (fun s => s) (fun _ => false) true true true
    { baseState with loggedIn := true, fsExists := ["p2"] } "p2" "a2"
    (by decide) (by decide) (by decide)

/-- C2, counterexample to the claim as stated: a failure in the last step of
the commit sequence — appending the mapping entry, here rejected because the
storage path is already present in the persisted mapping — surfaces as
`invalid_parameter`, not `invalid_service`, because `AddConfigEntry` is called
after the `try`/`catch` block. -/
theorem c2_counterexample :
    ((addService (fun s => s) (fun _ => false) true true true
        { baseState with
            loggedIn := true
            password := some ⟨"pw", true⟩
            pending := [("a1", "d1", "s1")]
            configFile := some (writeConfigFile (fun s => s) "pw" [("p1", "aX")])
            fsExists := ["p1"] } "p1" "a1").err = some Err.invalidParameter)
  ∧ (some Err.invalidParameter ≠ some Err.invalidService) := by
  constructor
  · decide
  · decide

/-- C2, amended: with the session logged in, the inputs valid and a pending
addition present, failures of the drive attach and of the credential-file
write are surfaced as `invalid_service`; but failures while appending the
mapping entry to the config store (a duplicate storage path, or the config
write failing) surface as `invalid_parameter`. -/
theorem c2_amended (hash : String → String) (excluded : String → Bool)
    (credWriteOk configWriteOk : Bool) (st : State) (p a : String)
    (hlog : st.loggedIn = true)
    (hvalid : checkValid excluded st.fsExists p a = true)
    (hpend : (List.lookup a st.pending).isSome = true) :
    ((addService hash excluded false credWriteOk configWriteOk st p a).err
        = some Err.invalidService)
  ∧ ((addService hash excluded true false configWriteOk st p a).err
        = some Err.invalidService)
  ∧ (((List.lookup p (readConfigFile (st.configFile.getD "")).1).isSome = true
        ∨ configWriteOk = false) →
      (addService hash excluded true true configWriteOk st p a).err
        = some Err.invalidParameter) := by
  obtain ⟨ids, hids⟩ := Option.isSome_iff_exists.mp hpend
  refine ⟨?_, ?_, ?_⟩
  · simp [addService, hlog, hvalid, hids]
  · simp [addService, hlog, hvalid, hids]
  · intro hdup
    rcases hdup with hdup | hdup
    · obtain ⟨v, hv⟩ := Option.isSome_iff_exists.mp hdup
      simp [addService, hlog, hvalid, hids, hv]
    · subst hdup
      simp [addService, hlog, hvalid, hids]
      cases hl : List.lookup p (readConfigFile (st.configFile.getD "")).1 with
      | none => simp [hl]
      | some v => simp [hl]

/-- C2, witness: the amended theorem at a concrete input (config write
failing). -/
theorem c2_witness :
    (addService (fun s => s) (fun _ => false) true true false
      { baseState with
          loggedIn := true
          password := some ⟨"pw", true⟩
          pending := [("a2", "d2", "s2")]
          fsExists := ["p2"] } "p2" "a2").err = some Err.invalidParameter :=
  (c2_amended (fun s => s) (fun _ => false) true false
    { baseState with
        loggedIn := true
        password := some ⟨"pw", true⟩
        pending := [("a2", "d2", "s2")]
        fsExists := ["p2"] } "p2" "a2"
    (by decide) (by decide) (by decide)).2.2 (Or.inr rfl)

/-- C3, counterexample to the claim as stated: keys and values are NOT
escaped — the writer renders them verbatim — so two different mappings whose
entries embed the `>` delimiter serialise to the same file, and the round
trip cannot (and does not) recover the embedded-delimiter mapping. -/
theorem c3_counterexample :
    writeConfigFile (fun s => s) "pw" [("a>b", "c")]
      = writeConfigFile (fun s => s) "pw" [("a", "b>c")]
  ∧ ([("a>b", "c")] : List (String × String)) ≠ [("a", "b>c")]
  ∧ readConfigFile (writeConfigFile (fun s => s) "pw" [("a>b", "c")])
      = ([("a", "b>c")], false) := by
  refine ⟨by decide, by decide, by decide⟩

/-- C3, amended: the write/read round trip over the config file is the
identity for every non-empty key-sorted mapping whose keys are non-empty and
free of `>` and newlines and whose values are non-empty and free of `:` and
newlines; no `configuration_error` is reported. -/
theorem c3_amended (hash : String → String) (pw : String)
    (M : List (String × String)) (hne : M ≠ [])
    (hwf : ∀ kv ∈ M, entryWellFormed kv)
    (hsort : M.Pairwise (fun a b => strLt a.1 b.1 = true)) :
    readConfigFile (writeConfigFile hash pw M) = (M, false) :=
  readConfigFile_writeConfigFile hash pw M hne hwf hsort

/-- C3, witness: the amended round trip at a concrete two-entry mapping. -/
theorem c3_witness :
    readConfigFile (writeConfigFile (fun s => s) "pw" [("p1", "a1"), ("p2", "a2")])
      = ([("p1", "a1"), ("p2", "a2")], false) :=
  c3_amended (fun s => s) "pw" [("p1", "a1"), ("p2", "a2")]
    (by decide) (by decide) (by decide)

/-- C4: verifying the sentinel written for an empty mapping succeeds (no
error, password kept) under the password that wrote it, and under any
password deriving a different (Key, IV) — i.e. any other password, under the
collision-freeness idealisation of the hash — it fails with
`invalid_password` and the in-memory password buffer is discarded.  In the
model decryption is total, as with the AES-CFB cipher: a wrong key yields
garbage plaintext rather than a separate failure, so both mismatch forms
collapse into the wrong-content branch. -/
theorem c4_sentinel_check (hash : String → String) (pwWrite pwCheck : String) :
    (pwCheck = pwWrite →
      checkConfigFileContent hash pwCheck (writeConfigFile hash pwWrite [])
        = (none, some pwCheck))
  ∧ (keyIv hash pwCheck ≠ keyIv hash pwWrite →
      checkConfigFileContent hash pwCheck (writeConfigFile hash pwWrite [])
        = (some Err.invalidPassword, none)) := by
  have hw : writeConfigFile hash pwWrite []
      = String.mk ('#' :: (encryptComment hash pwWrite).data ++ ['\n']) := by
    simp [writeConfigFile]
  constructor
  · intro h
    subst h
    unfold checkConfigFileContent
    rw [hw, substr_sentinel, encryptComment, symmDecrypt_symmEncrypt]
    simp
  · intro h
    unfold checkConfigFileContent
    rw [hw, substr_sentinel, encryptComment, symmDecrypt_wrongKey _ _ _ h]
    simp [garbagePlain_ne_comment]

/-- C4, witness: both branches at concrete passwords. -/
theorem c4_witness :
    keyIv (fun s => s) "b" ≠ keyIv (fun s => s) "a"
  ∧ checkConfigFileContent (fun s => s) "b" (writeConfigFile (fun s => s) "a" [])
      = (some Err.invalidPassword, none)
  ∧ checkConfigFileContent (fun s => s) "a" (writeConfigFile (fun s => s) "a" [])
      = (none, some "a") :=
  ⟨by decide,
   (c4_sentinel_check (fun s => s) "a" "b").2 (by decide),
   (c4_sentinel_check (fun s => s) "a" "a").1 rfl⟩

/-- C5: the key is the first `KeySize` bytes of the hash of the password
text, the IV is the next `IVSize` bytes, the two slices are adjacent and
non-overlapping (their concatenation is the `KeySize + IVSize`-byte prefix),
and derivation depends on nothing but the password text, so equal texts give
the identical (Key, IV) pair. -/
theorem c5_key_derivation (hash : String → String) (p q : String) (hpq : p = q) :
    (secureKey (securePassword hash p)).data = (hash p).data.take kAES256KeySize
  ∧ (secureIv (securePassword hash p)).data
      = ((hash p).data.drop kAES256KeySize).take kAES256IVSize
  ∧ (secureKey (securePassword hash p)).data ++ (secureIv (securePassword hash p)).data
      = (hash p).data.take (kAES256KeySize + kAES256IVSize)
  ∧ keyIv hash p = keyIv hash q := by
  refine ⟨by simp [secureKey, securePassword, substr, kAES256KeySize], ?_, ?_, by rw [hpq]⟩
  · simp [secureIv, securePassword, substr]
  · show ((hash p).data.drop 0).take 32 ++ ((hash p).data.drop 32).take 16
        = (hash p).data.take (32 + 16)
    rw [List.drop_zero, List.take_add]

/-- C5, witness: the slice decomposition at a concrete password. -/
theorem c5_witness :
    (secureKey (securePassword (fun s => s) "pw")).data
        ++ (secureIv (securePassword (fun s => s) "pw")).data
      = "pw".data.take (kAES256KeySize + kAES256IVSize) :=
  (c5_key_derivation (fun s => s) "pw" "pw" rfl).2.2.1

/-- C6, counterexample to the claim as stated: on a mapping line with a
parsable prefix followed by junk, `ReadConfigFile` invokes
`configuration_error` but returns the partially parsed mapping — qi
accumulates each successfully parsed entry into the attribute — not an empty
mapping. -/
theorem c6_counterexample :
    readConfigFile "x\na>b:junk" = ([("a", "b")], true)
  ∧ ([("a", "b")] : List (String × String)) ≠ [] := by
  refine ⟨by decide, by decide⟩

/-- C6, amended: whenever the mapping line leaves unconsumed input, the
`configuration_error` collaborator is invoked and the prefix of entries
parsed before the failure point is returned (empty when the line fails from
the start); no error is raised to the caller — `ReadConfigFile` always
returns. -/
theorem c6_amended (content : String) (l1 l2 : List Char) (tail : List (List Char))
    (hlines : getLines content.data = l1 :: l2 :: tail)
    (hfail : (parsePairs l2).2 ≠ []) :
    readConfigFile content = (mapOf (parsePairs l2).1, true) := by
  rw [readConfigFile, hlines]
  simp [hfail]

/-- C6, witness: the amended theorem at the concrete two-line content. -/
theorem c6_witness :
    readConfigFile "x\na>b:junk" = (mapOf (parsePairs "a>b:junk".data).1, true) :=
  c6_amended "x\na>b:junk" "x".data "a>b:junk".data [] (by decide) (by decide)

/-- C7: a `Login` with a password entered and a non-empty persisted mapping
(whose entries all have credential files decryptable under that password and
pass `CheckValid`) mounts the drive with the drive root id recovered from the
FIRST mapping entry's credential file, registers every mapping entry —
including the first — as an active service with that entry's recovered
service root id, in map order, and afterwards `logged_in` is true. -/
theorem c7_login_nonempty (hash : String → String) (freshId : String)
    (excluded : String → Bool) (st : State) (pw : PasswordBuf)
    (p1 a1 : String) (Mrest : List (String × String))
    (dm sm : String → String)
    (hlog : st.loggedIn = false)
    (hpw : st.password = some pw)
    (hread : readConfigFile (st.configFile.getD "") = ((p1, a1) :: Mrest, false))
    (hcred : ∀ kv ∈ (p1, a1) :: Mrest, List.lookup kv.1 st.credFiles
        = some (credContent hash pw.text (dm kv.1) (sm kv.1)))
    (hvalid : ∀ kv ∈ (p1, a1) :: Mrest, checkValid excluded st.fsExists kv.1 kv.2 = true) :
    login hash freshId excluded st
      = ⟨none,
         { st with
             loggedIn := true
             password := some { pw with finalised := true } },
         Effect.mountDrive (dm p1)
           :: ((p1, a1) :: Mrest).map
                (fun kv => Effect.reInitialiseService kv.2 kv.1 (sm kv.1))⟩ := by
  have hg1 : getIds hash pw.text st.credFiles p1 = some (dm p1, sm p1) :=
    getIds_credContent hash pw.text (dm p1) (sm p1) st.credFiles p1
      (hcred (p1, a1) (by simp))
  have hv1 : checkValid excluded st.fsExists p1 a1 = true := hvalid (p1, a1) (by simp)
  have hloop : loginLoop hash pw.text excluded
      { st with password := some { pw with finalised := true } } Mrest
      = (none, Mrest.map (fun kv => Effect.reInitialiseService kv.2 kv.1 (sm kv.1))) :=
    loginLoop_all_ok hash pw.text excluded _ Mrest dm sm
      (fun kv hkv => hcred kv (by simp [hkv]))
      (fun kv hkv => hvalid kv (by simp [hkv]))
  rw [hlog] at hloop
  simp only [login, hlog, hpw]
  simp only [Bool.false_eq_true, if_false]
  simp only [hread]
  simp only [hg1, hv1, hloop]
  simp

/-- C7, witness: a concrete two-entry mapping, with the drive mounted from
the first entry's recovered drive root id and both entries registered. -/
theorem c7_witness :
    login (fun s => s) "fresh" (fun _ => false)
      { baseState with
          password := some ⟨"pw", false⟩
          configFile := some (writeConfigFile (fun s => s) "pw" [("p1", "a1"), ("p2", "a2")])
          credFiles := [("p1", credContent (fun s => s) "pw" "d1" "s1"),
                        ("p2", credContent (fun s => s) "pw" "d2" "s2")]
          fsExists := ["p1", "p2"] }
      = ⟨none,
         { baseState with
             loggedIn := true
             password := some ⟨"pw", true⟩
             configFile := some (writeConfigFile (fun s => s) "pw" [("p1", "a1"), ("p2", "a2")])
             credFiles := [("p1", credContent (fun s => s) "pw" "d1" "s1"),
                           ("p2", credContent (fun s => s) "pw" "d2" "s2")]
             fsExists := ["p1", "p2"] },
         [Effect.mountDrive "d1",
          Effect.reInitialiseService "a1" "p1" "s1",
          Effect.reInitialiseService "a2" "p2" "s2"]⟩ :=
  c7_login_nonempty (fun s => s) "fresh" (fun _ => false)
    { baseState with
        password := some ⟨"pw", false⟩
        configFile := some (writeConfigFile (fun s => s) "pw" [("p1", "a1"), ("p2", "a2")])
        credFiles := [("p1", credContent (fun s => s) "pw" "d1" "s1"),
                      ("p2", credContent (fun s => s) "pw" "d2" "s2")]
        fsExists := ["p1", "p2"] }
    ⟨"pw", false⟩ "p1" "a1" [("p2", "a2")]
    (fun p => if p = "p1" then "d1" else "d2")
    (fun p => if p = "p1" then "s1" else "s2")
    rfl rfl (by decide) (by decide) (by decide)

/-- C8, counterexample to the claim as stated: in `AddService` the
`std::lock_guard` is declared before the `try` block and stays in scope for
the rest of the function, so the mutex IS held across the drive attach, the
credential-file write and the config-file read/write there. -/
theorem c8_counterexample :
    ¬ (∀ s ∈ addServiceSteps ++ addServiceFailedSteps ++ onServiceAddedSteps,
        isExternalOp s.action = true → s.mutexHeld = false) := by
  decide

/-- C8, amended: in `AddServiceFailed` and `OnServiceAdded` the mutex is held
only for the table operation and never across the drive detach or the slot
call; in `AddService`, however, every step — including the drive attach and
all file I-O — runs with the mutex held. -/
theorem c8_amended :
    (∀ s ∈ addServiceFailedSteps, isExternalOp s.action = true → s.mutexHeld = false)
  ∧ (∀ s ∈ onServiceAddedSteps, isExternalOp s.action = true → s.mutexHeld = false)
  ∧ ∀ s ∈ addServiceSteps, s.mutexHeld = true := by
  decide

/-- C8, witness: the amended theorem at the drive-detach step of
`AddServiceFailed`. -/
theorem c8_witness :
    (⟨Action.driveDetach, false⟩ : Step).mutexHeld = false :=
  c8_amended.1 ⟨Action.driveDetach, false⟩ (by decide) (by decide)

/-- C9: both `CreateUser` and `Login`, called while already logged in, return
immediately with no error, the state unchanged (no password buffer touched,
no file read or written) and no collaborator call (no identity generated, no
mount). -/
theorem c9_logged_in_noop (hash : String → String) (freshId : String)
    (pwValid excluded : String → Bool) (st : State) (h : st.loggedIn = true) :
    createUser hash freshId pwValid st = ⟨none, st, []⟩
  ∧ login hash freshId excluded st = ⟨none, st, []⟩ := by
  constructor
  · simp [createUser, h]
  · simp [login, h]

/-- C9, witness: `CreateUser` on a concrete logged-in state. -/
theorem c9_witness :
    ({ baseState with loggedIn := true } : State).loggedIn = true
  ∧ createUser (fun s => s) "f" (fun _ => true) { baseState with loggedIn := true }
      = ⟨none, { baseState with loggedIn := true }, []⟩ :=
  ⟨rfl, (c9_logged_in_noop (fun s => s) "f" (fun _ => true) (fun _ => false)
    { baseState with loggedIn := true } rfl).1⟩

/-- C10: when `OnServiceAdded` is delivered for an alias that already has a
pending entry, `std::map::insert` leaves the existing (drive root id, service
root id) pair unchanged — the whole state is unchanged — while the
`on_service_added` slot is still invoked with that alias. -/
theorem c10_pending_not_overwritten (st : State) (a d s d0 s0 : String)
    (h : List.lookup a st.pending = some (d0, s0)) :
    onServiceAdded st a d s = (st, [Effect.slotOnServiceAdded a]) := by
  simp [onServiceAdded, h]

/-- C10, witness: the theorem at a concrete pending table. -/
theorem c10_witness :
    List.lookup "a" ([("a", ("d0", "s0"))] : List (String × String × String))
      = some ("d0", "s0")
  ∧ onServiceAdded { baseState with pending := [("a", "d0", "s0")] } "a" "d" "s"
      = ({ baseState with pending := [("a", "d0", "s0")] },
         [Effect.slotOnServiceAdded "a"]) :=
  ⟨by decide,
   c10_pending_not_overwritten { baseState with pending := [("a", "d0", "s0")] }
     "a" "d" "s" "d0" "s0" (by decide)⟩

end SureFile
